import Mathlib

/-!
# Verification of the midi2stagetraxx extraction engine

Shallow embedding of the repository's five Rust source files
(`src/extractor.rs`, `src/midi_event.rs`, `src/main.rs`,
`src/formatter/stage_traxx_formatter.rs`, `src/formatter/mod.rs`).

Modelling conventions:

* Rust `f64` is modelled as `ℚ`.  Every claim-relevant computation in the
  source (tick/tempo arithmetic on small integers, `x as f64` casts,
  additions and multiplications of exactly representable values) is exact
  in IEEE-754 double precision, and `f64` addition of non-negative values
  is monotone, so the rational model is faithful for the properties below.
* Machine integers (`u8`, `u16`, `u32`) are modelled as `Nat`.  The one
  addition performed on a raw `u8` (`channel + 1`) is written `% 256`
  explicitly.  The `u32` accumulation `ticks += dt` is modelled as
  unbounded `Nat` addition (a debug build of the source traps on overflow
  rather than wrapping, so no wrong value is ever produced).
* `println!` / `eprintln!` diagnostics carry no data flow into any result;
  they are dropped from the embedding.  The formatted event lines that
  `main.rs` prints to stdout are modelled as the returned `String`s.
* A Rust `unimplemented!` / `panic` aborts the process; it is modelled as
  an explicit `panicked` outcome (for `Extractor::new`) or `Option.none`
  (for the SMPTE frame-rate conversion).
* `std::time::Duration::from_secs_f64` rounds its argument to the nearest
  nanosecond; it is modelled with `round` on `ℚ`.
-/

/-! ## The external `midi_file` crate's data, as seen by this repository -/

namespace midi_file

/-- Header division: `Division::QuarterNote(u16)` or `Division::Smpte(...)`. -/
inductive Division where
  | QuarterNote (qtr : Nat)
  | Smpte (frames_per_second : Nat) (ticks_per_frame : Nat)
  deriving DecidableEq

/-- `midi_file::core::NoteMessage`: channel (0-based, `0..=15`), note number, velocity. -/
structure NoteMessage where
  channel : Nat
  note_number : Nat
  velocity : Nat
  deriving DecidableEq

/-- `midi_file::core::ControlChangeValue`: channel (0-based), controller number, value. -/
structure ControlChangeValue where
  channel : Nat
  control : Nat
  value : Nat
  deriving DecidableEq

/-- `midi_file::file::SmpteOffsetValue`, transmuted in the source to a
5-raw-byte struct `{hr, mn, se, fr, ff}`. -/
structure SmpteOffsetValue where
  hr : Nat
  mn : Nat
  se : Nat
  fr : Nat
  ff : Nat
  deriving DecidableEq

/-- `midi_file::core::Message`: the channel-message kinds the repository
inspects, plus a constructor for every other kind (pitch bend, program
change, ...), which both engine copies only log. -/
inductive Message where
  | NoteOn (note : NoteMessage)
  | NoteOff (note : NoteMessage)
  | Control (cc : ControlChangeValue)
  | OtherChannel
  deriving DecidableEq

/-- `midi_file::file::MetaEvent`: the meta kinds the repository inspects,
plus a catch-all for the rest. -/
inductive MetaEvent where
  | SetTempo (micros_per_qn : Nat)
  | SmpteOffset (v : SmpteOffsetValue)
  | TimeSignature
  | OtherMeta
  deriving DecidableEq

/-- `midi_file::file::Event`. -/
inductive Event where
  | Midi (msg : Message)
  | Meta (m : MetaEvent)
  deriving DecidableEq

/-- `midi_file::file::TrackEvent`: a delta-time (ticks since the previous
event of the same track) and the event payload. -/
structure TrackEvent where
  delta_time : Nat
  event : Event
  deriving DecidableEq

/-- The part of `midi_file::MidiFile` this repository reads: the header
division and, per track, the ordered event list. -/
structure MidiFile where
  division : Division
  tracks : List (List TrackEvent)
  deriving DecidableEq

end midi_file

/-! ## `src/midi_event.rs` -/

namespace midi_event

/-- `midi_event::Message`. -/
inductive Message where
  | NoteOn (note : Nat) (velocity : Nat)
  | NoteOff (note : Nat) (velocity : Nat)
  | ControlChange (controller : Nat) (value : Nat)
  deriving DecidableEq

/-- `midi_event::MidiEvent`: timestamp in seconds (`f64`, modelled `ℚ`),
message, 1-based channel. -/
structure MidiEvent where
  timestamp : ℚ
  message : Message
  channel : Nat
  deriving DecidableEq

/-- Analysis helper: is this message a `NoteOff`? -/
def Message.isNoteOff : Message → Bool
  | .NoteOff _ _ => true
  | _ => false

/-- Analysis helper: is this message a `NoteOn`? -/
def Message.isNoteOn : Message → Bool
  | .NoteOn _ _ => true
  | _ => false

end midi_event

/-! ## `src/extractor.rs` -/

/-- `const MICROS_PER_SEC: f64 = 1_000_000.0`. -/
def MICROS_PER_SEC : ℚ := 1000000

/-- `const DEFAULT_BPM: f64 = 120.0`. -/
def DEFAULT_BPM : ℚ := 120

/-- The `Extractor` struct (`src/extractor.rs`, lines 11-20). -/
structure Extractor where
  midi_file : midi_file.MidiFile
  override_midi_channel : Option Nat
  pulses_per_qn : Nat
  ticks : Nat
  last_tempo_change_ticks : Nat
  elapsed_sec : ℚ
  last_midi_event_ts : ℚ
  current_tempo_micros_per_qn : Nat
  deriving DecidableEq

/-- Outcome of `Extractor::new`, distinguishing a returned `anyhow` error
(`err`) from a process-aborting `unimplemented!` (`panicked`). -/
inductive NewResult where
  | ok (e : Extractor)
  | panicked (msg : String)
  | err (msg : String)
  deriving DecidableEq

/-- Analysis helper: did construction return an error value to the caller? -/
def NewResult.isErr : NewResult → Bool
  | .err _ => true
  | _ => false

/-- `Extractor::new` (`src/extractor.rs`, lines 27-53).  On a quarter-note
division it stores the division and the 120 BPM default tempo
(`(MICROS_PER_SEC / (DEFAULT_BPM / 60.0)) as u32`); on an SMPTE division it
hits `unimplemented!("SMPTE division")`, which aborts the process. -/
def Extractor.new (midi_file : midi_file.MidiFile) (override_midi_channel : Option Nat) :
    NewResult :=
  match midi_file.division with
  | .QuarterNote qtr =>
      .ok { midi_file := midi_file
            override_midi_channel := override_midi_channel
            pulses_per_qn := qtr
            ticks := 0
            last_tempo_change_ticks := 0
            elapsed_sec := 0
            last_midi_event_ts := 0
            current_tempo_micros_per_qn := (⌊MICROS_PER_SEC / (DEFAULT_BPM / 60)⌋).toNat }
  | .Smpte _ _ => .panicked "SMPTE division"

/-- `ticks_to_seconds` (`src/extractor.rs`, lines 180-185). -/
def ticks_to_seconds (ticks : Nat) (pulses_per_qn : Nat) (tempo : Nat) : ℚ :=
  let tempo_in_secs : ℚ := (tempo : ℚ) / 1000000
  let beats : ℚ := (ticks : ℚ) / (pulses_per_qn : ℚ)
  beats * tempo_in_secs

/-- `Extractor::handle_note` (`src/extractor.rs`, lines 126-141).  The raw
channel is a `u8` in `0..=15`; `+ 1` is `u8` addition, hence `% 256`. -/
def Extractor.handle_note (self : Extractor) (note : midi_file.NoteMessage)
    (timestamp : ℚ) (is_on : Bool) : midi_event.MidiEvent :=
  let velocity := if is_on then note.velocity else 0
  let message := if is_on then midi_event.Message.NoteOn note.note_number velocity
                 else midi_event.Message.NoteOff note.note_number velocity
  { timestamp := timestamp
    message := message
    channel := self.override_midi_channel.getD ((note.channel + 1) % 256) }

/-- `Extractor::handle_control_change` (`src/extractor.rs`, lines 143-153). -/
def Extractor.handle_control_change (self : Extractor) (cc : midi_file.ControlChangeValue)
    (timestamp : ℚ) : midi_event.MidiEvent :=
  { timestamp := timestamp
    message := midi_event.Message.ControlChange cc.control cc.value
    channel := self.override_midi_channel.getD ((cc.channel + 1) % 256) }

/-- `Extractor::handle_midi_msg` (`src/extractor.rs`, lines 109-124).  The
`dt` argument is only used by the diagnostic `eprintln!` in the source. -/
def Extractor.handle_midi_msg (self : Extractor) (msg : midi_file.Message)
    (timestamp : ℚ) (dt : Nat) : Option midi_event.MidiEvent :=
  match msg with
  | .NoteOn note => some (self.handle_note note timestamp true)
  | .NoteOff note => some (self.handle_note note timestamp false)
  | .Control cc => some (self.handle_control_change cc timestamp)
  | .OtherChannel =>
      let _ := dt
      none

/-- `Extractor::handle_tempo_change` (`src/extractor.rs`, lines 155-168). -/
def Extractor.handle_tempo_change (self : Extractor) (new_tempo_micros_per_qn : Nat) :
    Extractor :=
  let ticks_since_last_tempo_change := self.ticks - self.last_tempo_change_ticks
  { self with
    last_tempo_change_ticks := self.ticks
    elapsed_sec := self.elapsed_sec +
      ticks_to_seconds ticks_since_last_tempo_change self.pulses_per_qn
        self.current_tempo_micros_per_qn
    current_tempo_micros_per_qn := new_tempo_micros_per_qn }

/-- `Extractor::process_event` (`src/extractor.rs`, lines 70-107).  `&mut
self` is modelled by returning the updated state alongside the optional
emitted event. -/
def Extractor.process_event (self : Extractor) (track_event : midi_file.TrackEvent) :
    Extractor × Option midi_event.MidiEvent :=
  let dt := track_event.delta_time
  let self := { self with ticks := self.ticks + dt }
  match track_event.event with
  | .Midi msg =>
      let ticks_since_last_tempo_change := self.ticks - self.last_tempo_change_ticks
      let timestamp := self.elapsed_sec +
        ticks_to_seconds ticks_since_last_tempo_change self.pulses_per_qn
          self.current_tempo_micros_per_qn
      let self := { self with last_midi_event_ts := timestamp }
      (self, self.handle_midi_msg msg timestamp ticks_since_last_tempo_change)
  | .Meta (.SetTempo new_tempo) => (self.handle_tempo_change new_tempo, none)
  | .Meta (.SmpteOffset _) => (self, none)
  | .Meta .TimeSignature => (self, none)
  | .Meta .OtherMeta => (self, none)

/-- The event loop of `Extractor::run` (`src/extractor.rs`, lines 60-65):
process each event in order, collecting the emitted events. -/
def Extractor.processAll (self : Extractor) (events : List midi_file.TrackEvent) :
    Extractor × List midi_event.MidiEvent :=
  match events with
  | [] => (self, [])
  | e :: rest =>
      let step := self.process_event e
      let tail := step.1.processAll rest
      (tail.1, match step.2 with
               | some ev => ev :: tail.2
               | none => tail.2)

/-- `Extractor::run` (`src/extractor.rs`, lines 55-68): flatten the tracks
in file order and process the concatenation.  The source's `Result` is
always `Ok`; the mutated state is returned alongside the event list. -/
def Extractor.run (self : Extractor) : Extractor × List midi_event.MidiEvent :=
  let track_events := self.midi_file.tracks.flatMap id
  self.processAll track_events

/-! ### SMPTE metadata decoder (`src/extractor.rs`, lines 187-241) -/

/-- `enum SmpteFrameSpec` (`src/extractor.rs`, lines 197-202). -/
inductive SmpteFrameSpec where
  | F24
  | F25
  | F2997
  | F30
  deriving DecidableEq

/-- `SmpteFrameSpec::frame_rate` (`src/extractor.rs`, lines 204-213). -/
def SmpteFrameSpec.frame_rate : SmpteFrameSpec → ℚ
  | .F24 => 24
  | .F25 => 25
  | .F2997 => 2997 / 100
  | .F30 => 30

/-- `impl From<u8> for SmpteFrameSpec` (`src/extractor.rs`, lines 215-225).
The `_ => panic!(...)` arm aborts the process; it is modelled as `none`. -/
def SmpteFrameSpec.fromU8 (val : Nat) : Option SmpteFrameSpec :=
  match val with
  | 0 => some .F24
  | 1 => some .F25
  | 2 => some .F2997
  | 3 => some .F30
  | _ => none

/-- `extract_frame_rate_hrs` (`src/extractor.rs`, lines 227-241).  The
source transmutes the opaque `SmpteOffsetValue` into the 5-byte layout and
reads its `hr` byte; the embedding reads the same byte directly.  A result
of `none` corresponds to the panicking `From` conversion. -/
def extract_frame_rate_hrs (smpte_offset : midi_file.SmpteOffsetValue) : Option (ℚ × Nat) :=
  let mask := 0b00000011
  let frame_rate_spec := (smpte_offset.hr >>> 6) &&& mask
  match SmpteFrameSpec.fromU8 frame_rate_spec with
  | some spec =>
      let fr := spec.frame_rate
      let hr_mask := 0b00011111
      let hr := smpte_offset.hr &&& hr_mask
      some (fr, hr)
  | none => none

/-! ## `src/formatter/stage_traxx_formatter.rs` -/

/-- Zero-padded decimal rendering of a natural number, the effect of
Rust's `{:02}` / `{:03}` format specifiers. -/
def padZeros (width : Nat) (n : Nat) : String :=
  let s := toString n
  String.mk (List.replicate (width - s.length) '0') ++ s

namespace StageTraxxFormatter

/-- `format_midi_time` (`src/formatter/stage_traxx_formatter.rs`, lines
32-38).  `Duration::from_secs_f64` rounds to the nearest nanosecond;
`as_secs` and `subsec_millis` then truncate. -/
def format_midi_time (seconds : ℚ) : String :=
  let nanos : Nat := (round (seconds * 1000000000)).toNat
  let as_secs : Nat := nanos / 1000000000
  let minutes := as_secs / 60
  let secs := as_secs % 60
  let fractional := nanos % 1000000000 / 1000000
  padZeros 2 minutes ++ ":" ++ padZeros 2 secs ++ "." ++ padZeros 3 fractional

/-- `StageTraxxFormatter::format` (`src/formatter/stage_traxx_formatter.rs`,
lines 13-29). -/
def format (event : midi_event.MidiEvent) : String :=
  let params : String × Nat × Nat :=
    match event.message with
    | .NoteOn note velocity => ("N", note, velocity)
    | .NoteOff note _ => ("N", note, 0)
    | .ControlChange num val => ("CC", num, val)
  "[midi@" ++ format_midi_time event.timestamp ++ ": " ++ params.1 ++
    toString params.2.1 ++ "." ++ toString params.2.2 ++ "@" ++
    toString event.channel ++ "]"

end StageTraxxFormatter

/-! ## `src/main.rs` — the second, inline copy of the pipeline

`main` re-implements the whole engine with local mutable variables and
prints each formatted event line directly.  The diagnostic `eprintln!`s
(and the `println!("MIDI: ...")` debug trace for unclassified channel
messages, which produces no `MidiEvent` on either side) are excluded; the
modelled output is the sequence of formatted event lines. -/

namespace main

/-- `let micros_per_s = 1_000_000.0` (`src/main.rs`, line 56). -/
def micros_per_s : ℚ := 1000000

/-- `let starting_bpm = 120.0` (`src/main.rs`, line 59). -/
def starting_bpm : ℚ := 120

/-- The local mutable variables of `main`'s loop (`src/main.rs`, lines 60-64). -/
structure LoopState where
  tempo_micros_per_q : Nat
  ticks : Nat
  last_tempo_change_tick : Nat
  ellapsed_seconds : ℚ
  last_midi_event_ts : ℚ
  deriving DecidableEq

/-- Initial values of `main`'s loop variables (`src/main.rs`, lines 60-64). -/
def initState : LoopState :=
  { tempo_micros_per_q := (⌊micros_per_s / (starting_bpm / 60)⌋).toNat
    ticks := 0
    last_tempo_change_tick := 0
    ellapsed_seconds := 0
    last_midi_event_ts := 0 }

/-- `ticks_to_seconds` (`src/main.rs`, lines 164-169); identical arithmetic
to the extractor's copy. -/
def ticks_to_seconds (ticks : Nat) (pulses_per_qn : Nat) (tempo : Nat) : ℚ :=
  let tempo_in_secs : ℚ := (tempo : ℚ) / 1000000
  let beats : ℚ := (ticks : ℚ) / (pulses_per_qn : ℚ)
  beats * tempo_in_secs

/-- `format_midi_time` (`src/main.rs`, lines 171-177); identical to the
formatter's copy. -/
def format_midi_time (seconds : ℚ) : String :=
  let nanos : Nat := (round (seconds * 1000000000)).toNat
  let as_secs : Nat := nanos / 1000000000
  let minutes := as_secs / 60
  let secs := as_secs % 60
  let fractional := nanos % 1000000000 / 1000000
  padZeros 2 minutes ++ ":" ++ padZeros 2 secs ++ "." ++ padZeros 3 fractional

/-- `handle_note` (`src/main.rs`, lines 128-143), returning the printed
line.  The `N` tag is split from the `": N"` literal so the produced string
is written segment-by-segment; the value is unchanged. -/
def handle_note (note : midi_file.NoteMessage) (timestamp : ℚ) (is_on : Bool)
    (ch : Option Nat) : String :=
  let velocity := if is_on then note.velocity else 0
  "[midi@" ++ format_midi_time timestamp ++ ": " ++ "N" ++
    toString note.note_number ++ "." ++ toString velocity ++ "@" ++
    toString (ch.getD ((note.channel + 1) % 256)) ++ "]"

/-- `handle_midi_msg` (`src/main.rs`, lines 145-162), returning the printed
event line; the `_ => println!("MIDI: ...")` debug arm yields `none`. -/
def handle_midi_msg (msg : midi_file.Message) (timestamp : ℚ) (dt : Nat)
    (ch : Option Nat) : Option String :=
  match msg with
  | .NoteOn note => some (handle_note note timestamp true ch)
  | .NoteOff note => some (handle_note note timestamp false ch)
  | .Control cc =>
      some ("[midi@" ++ format_midi_time timestamp ++ ": " ++ "CC" ++
        toString cc.control ++ "." ++ toString cc.value ++ "@" ++
        toString (ch.getD ((cc.channel + 1) % 256)) ++ "]")
  | .OtherChannel =>
      let _ := dt
      none

/-- One iteration of `main`'s inner event loop (`src/main.rs`, lines 67-122). -/
def step (override_midi_channel : Option Nat) (pulses_per_qn : Nat)
    (s : LoopState) (event : midi_file.TrackEvent) : LoopState × Option String :=
  let dt := event.delta_time
  let s := { s with ticks := s.ticks + dt }
  match event.event with
  | .Midi msg =>
      let ticks_since_last_tempo_change := s.ticks - s.last_tempo_change_tick
      let timestamp := s.ellapsed_seconds +
        ticks_to_seconds ticks_since_last_tempo_change pulses_per_qn s.tempo_micros_per_q
      ({ s with last_midi_event_ts := timestamp },
       handle_midi_msg msg timestamp ticks_since_last_tempo_change override_midi_channel)
  | .Meta (.SetTempo new_tempo) =>
      let ticks_since_last_tempo_change := s.ticks - s.last_tempo_change_tick
      ({ s with
          last_tempo_change_tick := s.ticks
          ellapsed_seconds := s.ellapsed_seconds +
            ticks_to_seconds ticks_since_last_tempo_change pulses_per_qn s.tempo_micros_per_q
          tempo_micros_per_q := new_tempo }, none)
  | .Meta (.SmpteOffset _) => (s, none)
  | .Meta .TimeSignature => (s, none)
  | .Meta .OtherMeta => (s, none)

/-- `main`'s inner `for event in track.events()` loop. -/
def eventLoop (override_midi_channel : Option Nat) (pulses_per_qn : Nat)
    (s : LoopState) (events : List midi_file.TrackEvent) : LoopState × List String :=
  match events with
  | [] => (s, [])
  | e :: rest =>
      let one := step override_midi_channel pulses_per_qn s e
      let tail := eventLoop override_midi_channel pulses_per_qn one.1 rest
      (tail.1, match one.2 with
               | some line => line :: tail.2
               | none => tail.2)

/-- `main`'s outer `for track in file.tracks()` loop (`src/main.rs`, line 66). -/
def trackLoop (override_midi_channel : Option Nat) (pulses_per_qn : Nat)
    (s : LoopState) (tracks : List (List midi_file.TrackEvent)) : LoopState × List String :=
  match tracks with
  | [] => (s, [])
  | t :: rest =>
      let inner := eventLoop override_midi_channel pulses_per_qn s t
      let outer := trackLoop override_midi_channel pulses_per_qn inner.1 rest
      (outer.1, inner.2 ++ outer.2)

/-- The timing part of `main` (`src/main.rs`, lines 55-126): the sequence of
formatted event lines printed for a tick-based file. -/
def run (override_midi_channel : Option Nat) (pulses_per_qn : Nat)
    (tracks : List (List midi_file.TrackEvent)) : List String :=
  (trackLoop override_midi_channel pulses_per_qn initState tracks).2

end main

/-! ## Spec-side reference definitions -/

/-- The spec's frame-rate code table (§4.3): `0→24.0, 1→25.0, 2→29.97,
3→30.0`; stated over the raw 2-bit code. -/
def frameRateTable (code : Nat) : ℚ :=
  match code with
  | 0 => 24
  | 1 => 25
  | 2 => 2997 / 100
  | _ => 30

/-- The spec's notion of "true elapsed seconds since track start" (§3
invariant): every event's delta-time is converted at the tempo in force
when it elapses, and a tempo-change event installs its new tempo for all
subsequent deltas. -/
def trueElapsedSec (pulses_per_qn : Nat) (tempo : Nat) :
    List midi_file.TrackEvent → ℚ
  | [] => 0
  | e :: rest =>
      ticks_to_seconds e.delta_time pulses_per_qn tempo +
        trueElapsedSec pulses_per_qn
          (match e.event with
           | .Meta (.SetTempo t) => t
           | _ => tempo) rest

/-- Modelled from the spec: the CLI "collision skipping" filter (§6 output
boundary, §8 collision filter).  No code under `src/` implements it (the
CLI has no such flag and `main.rs` only carries a commented-out timestamp
hack), so it is modelled from the spec's words: "when two adjacent emitted
events (after engine output, before formatting) share an identical
timestamp and the run is configured with collision skipping, drop the
earlier of the pair if it is a note-off". -/
def skip_collisions : List midi_event.MidiEvent → List midi_event.MidiEvent
  | [] => []
  | [e] => [e]
  | a :: b :: rest =>
      if a.timestamp = b.timestamp ∧ a.message.isNoteOff = true then
        skip_collisions (b :: rest)
      else
        a :: skip_collisions (b :: rest)

/-- Modelled from the spec: the final CLI output of the engine's event
sequence under the boolean collision-skipping configuration (§6): the
filter is applied when enabled, and the sequence passes through unchanged
when disabled. -/
def final_output (collision_skipping : Bool) (events : List midi_event.MidiEvent) :
    List midi_event.MidiEvent :=
  if collision_skipping then skip_collisions events else events

/-! ## Helper lemmas -/

/-- The running clock of an extractor state: closed segments plus the open
segment so far.  This is the quantity the spec's §3 invariant names "true
elapsed seconds since track start". -/
def Extractor.now (s : Extractor) : ℚ :=
  s.elapsed_sec +
    ticks_to_seconds (s.ticks - s.last_tempo_change_ticks) s.pulses_per_qn
      s.current_tempo_micros_per_qn

theorem ticks_to_seconds_nonneg (t p c : Nat) : 0 ≤ ticks_to_seconds t p c := by
  unfold ticks_to_seconds
  positivity

theorem ticks_to_seconds_add (a b : Nat) (p c : Nat) :
    ticks_to_seconds (a + b) p c = ticks_to_seconds a p c + ticks_to_seconds b p c := by
  unfold ticks_to_seconds
  push_cast
  ring

theorem ticks_to_seconds_zero (p c : Nat) : ticks_to_seconds 0 p c = 0 := by
  unfold ticks_to_seconds
  simp

/-- Tempo in force after a list of events, starting from `tempo` (spec §3:
a tempo-change installs the new tempo as current). -/
def tempoAfter (tempo : Nat) : List midi_file.TrackEvent → Nat
  | [] => tempo
  | e :: rest =>
      tempoAfter
        (match e.event with
         | .Meta (.SetTempo t) => t
         | _ => tempo) rest

theorem Extractor.process_event_ppqn (s : Extractor) (ev : midi_file.TrackEvent) :
    (s.process_event ev).1.pulses_per_qn = s.pulses_per_qn := by
  obtain ⟨dt, e⟩ := ev
  cases e with
  | Midi msg => rfl
  | Meta m => cases m <;> rfl

theorem Extractor.process_event_override (s : Extractor) (ev : midi_file.TrackEvent) :
    (s.process_event ev).1.override_midi_channel = s.override_midi_channel := by
  obtain ⟨dt, e⟩ := ev
  cases e with
  | Midi msg => rfl
  | Meta m => cases m <;> rfl

theorem Extractor.process_event_ticks (s : Extractor) (ev : midi_file.TrackEvent) :
    (s.process_event ev).1.ticks = s.ticks + ev.delta_time := by
  obtain ⟨dt, e⟩ := ev
  cases e with
  | Midi msg => rfl
  | Meta m => cases m <;> rfl

theorem Extractor.process_event_tempo (s : Extractor) (ev : midi_file.TrackEvent) :
    (s.process_event ev).1.current_tempo_micros_per_qn =
      (match ev.event with
       | .Meta (.SetTempo t) => t
       | _ => s.current_tempo_micros_per_qn) := by
  obtain ⟨dt, e⟩ := ev
  cases e with
  | Midi msg => rfl
  | Meta m => cases m <;> rfl

theorem Extractor.process_event_ltct_le (s : Extractor) (ev : midi_file.TrackEvent)
    (hl : s.last_tempo_change_ticks ≤ s.ticks) :
    (s.process_event ev).1.last_tempo_change_ticks ≤ (s.process_event ev).1.ticks := by
  obtain ⟨dt, e⟩ := ev
  cases e with
  | Midi msg => simpa [Extractor.process_event] using by omega
  | Meta m =>
      cases m <;>
        simp [Extractor.process_event, Extractor.handle_tempo_change] <;> omega

theorem Extractor.process_event_now (s : Extractor) (ev : midi_file.TrackEvent)
    (hl : s.last_tempo_change_ticks ≤ s.ticks) :
    (s.process_event ev).1.now =
      s.now + ticks_to_seconds ev.delta_time s.pulses_per_qn
        s.current_tempo_micros_per_qn := by
  obtain ⟨dt, e⟩ := ev
  have hsplit : s.ticks + dt - s.last_tempo_change_ticks
      = (s.ticks - s.last_tempo_change_ticks) + dt := by omega
  cases e with
  | Midi msg =>
      simp only [Extractor.process_event, Extractor.now, hsplit, ticks_to_seconds_add]
      ring
  | Meta m =>
      cases m with
      | SetTempo t =>
          simp only [Extractor.process_event, Extractor.handle_tempo_change, Extractor.now,
            Nat.sub_self, ticks_to_seconds_zero, hsplit, ticks_to_seconds_add]
          ring
      | SmpteOffset v =>
          simp only [Extractor.process_event, Extractor.now, hsplit, ticks_to_seconds_add]
          ring
      | TimeSignature =>
          simp only [Extractor.process_event, Extractor.now, hsplit, ticks_to_seconds_add]
          ring
      | OtherMeta =>
          simp only [Extractor.process_event, Extractor.now, hsplit, ticks_to_seconds_add]
          ring

theorem Extractor.process_event_emit_ts (s : Extractor) (ev : midi_file.TrackEvent)
    (m : midi_event.MidiEvent) (hm : (s.process_event ev).2 = some m) :
    m.timestamp = (s.process_event ev).1.now := by
  obtain ⟨dt, e⟩ := ev
  cases e with
  | Midi msg =>
      cases msg with
      | NoteOn note =>
          simp only [Extractor.process_event, Extractor.handle_midi_msg,
            Extractor.handle_note, Option.some.injEq] at hm
          simp [← hm, Extractor.now, Extractor.process_event]
      | NoteOff note =>
          simp only [Extractor.process_event, Extractor.handle_midi_msg,
            Extractor.handle_note, Option.some.injEq] at hm
          simp [← hm, Extractor.now, Extractor.process_event]
      | Control cc =>
          simp only [Extractor.process_event, Extractor.handle_midi_msg,
            Extractor.handle_control_change, Option.some.injEq] at hm
          simp [← hm, Extractor.now, Extractor.process_event]
      | OtherChannel =>
          simp [Extractor.process_event, Extractor.handle_midi_msg] at hm
  | Meta meta =>
      cases meta <;> simp [Extractor.process_event] at hm

theorem chain_le_cons_of_le {a b : ℚ} {l : List ℚ} (h : b ≤ a)
    (hc : List.Chain' (· ≤ ·) (a :: l)) : List.Chain' (· ≤ ·) (b :: l) := by
  cases l with
  | nil => simp
  | cons c l =>
      rw [List.chain'_cons] at hc ⊢
      exact ⟨le_trans h hc.1, hc.2⟩

theorem Extractor.processAll_spec (events : List midi_file.TrackEvent) :
    ∀ s : Extractor, s.last_tempo_change_ticks ≤ s.ticks →
      (s.processAll events).1.last_tempo_change_ticks ≤ (s.processAll events).1.ticks ∧
      (s.processAll events).1.pulses_per_qn = s.pulses_per_qn ∧
      (s.processAll events).1.override_midi_channel = s.override_midi_channel ∧
      (s.processAll events).1.current_tempo_micros_per_qn =
        tempoAfter s.current_tempo_micros_per_qn events ∧
      (s.processAll events).1.now =
        s.now + trueElapsedSec s.pulses_per_qn s.current_tempo_micros_per_qn events ∧
      List.Chain' (· ≤ ·)
        (s.now :: ((s.processAll events).2.map midi_event.MidiEvent.timestamp)) := by
  induction events with
  | nil =>
      intro s hl
      refine ⟨hl, rfl, rfl, rfl, ?_, ?_⟩
      · simp [Extractor.processAll, trueElapsedSec]
      · simp [Extractor.processAll]
  | cons e rest ih =>
      intro s hl
      have h1 := s.process_event_ltct_le e hl
      have h2 := s.process_event_ppqn e
      have h3 := s.process_event_override e
      have h4 := s.process_event_tempo e
      have h5 := s.process_event_now e hl
      obtain ⟨i1, i2, i3, i4, i5, i6⟩ := ih (s.process_event e).1 h1
      have hnonneg := ticks_to_seconds_nonneg e.delta_time s.pulses_per_qn
        s.current_tempo_micros_per_qn
      have hnow_le : s.now ≤ (s.process_event e).1.now := by
        rw [h5]; linarith
      have key : s.processAll (e :: rest) =
          (((s.process_event e).1.processAll rest).1,
           match (s.process_event e).2 with
           | some ev => ev :: ((s.process_event e).1.processAll rest).2
           | none => ((s.process_event e).1.processAll rest).2) := rfl
      rw [key]
      refine ⟨i1, by rw [i2, h2], by rw [i3, h3], ?_, ?_, ?_⟩
      · rw [i4, h4]
        rfl
      · rw [i5, h5, h2, h4]
        show _ = s.now +
          (ticks_to_seconds e.delta_time s.pulses_per_qn s.current_tempo_micros_per_qn +
            trueElapsedSec s.pulses_per_qn _ rest)
        ring
      · rcases hout : (s.process_event e).2 with _ | m
        · simpa using chain_le_cons_of_le hnow_le i6
        · have hts := s.process_event_emit_ts e m hout
          simp only [List.map_cons]
          rw [List.chain'_cons]
          exact ⟨by rw [hts]; exact hnow_le, by rw [hts]; exact i6⟩

theorem default_tempo_val : (⌊MICROS_PER_SEC / (DEFAULT_BPM / 60)⌋).toNat = 500000 := by
  norm_num [MICROS_PER_SEC, DEFAULT_BPM]
  decide

/-- The state `Extractor::new` builds for a quarter-note division `qtr`,
with the default-tempo cast evaluated:
`(1_000_000.0 / (120.0 / 60.0)) as u32 = 500_000`. -/
def initExtractor (qtr : Nat) (tracks : List (List midi_file.TrackEvent))
    (override_ch : Option Nat) : Extractor :=
  { midi_file := { division := .QuarterNote qtr, tracks := tracks }
    override_midi_channel := override_ch
    pulses_per_qn := qtr
    ticks := 0
    last_tempo_change_ticks := 0
    elapsed_sec := 0
    last_midi_event_ts := 0
    current_tempo_micros_per_qn := 500000 }

theorem Extractor.new_quarter (qtr : Nat) (tracks : List (List midi_file.TrackEvent))
    (override_ch : Option Nat) :
    Extractor.new { division := .QuarterNote qtr, tracks := tracks } override_ch =
      .ok (initExtractor qtr tracks override_ch) := by
  simp [Extractor.new, initExtractor, default_tempo_val]

/-! ## Claims -/

/-- The C1 scenario: ticks-per-beat 480, a tempo change to 1,000,000
µs/qn at cumulative tick 960, then a note event at cumulative tick 1440. -/
def c1_file : midi_file.MidiFile :=
  { division := .QuarterNote 480
    tracks := [[ { delta_time := 960, event := .Meta (.SetTempo 1000000) },
                 { delta_time := 480,
                   event := .Midi (.NoteOn { channel := 0, note_number := 60, velocity := 100 }) } ]] }

/-- The engine state `Extractor::new` produces for the C1 scenario. -/
def c1_extractor : Extractor :=
  { midi_file := c1_file
    override_midi_channel := none
    pulses_per_qn := 480
    ticks := 0
    last_tempo_change_ticks := 0
    elapsed_sec := 0
    last_midi_event_ts := 0
    current_tempo_micros_per_qn := 500000 }

/-- **C1** (tempo-segment correctness): an engine built with ticks-per-beat
480 and the default 500,000 µs/qn tempo, fed a tempo change to 1,000,000
µs/qn at cumulative tick 960 and a note event at cumulative tick 1440,
emits exactly one `MidiEvent`, whose timestamp is exactly 2 seconds. -/
theorem tempo_segment_correctness :
    Extractor.new c1_file none = .ok c1_extractor ∧
    (c1_extractor.run).2.map midi_event.MidiEvent.timestamp = [2] := by
  constructor
  · simp [Extractor.new, c1_file, c1_extractor, default_tempo_val]
  · simp only [Extractor.run, Extractor.processAll, Extractor.process_event,
      Extractor.handle_midi_msg, Extractor.handle_note, Extractor.handle_tempo_change,
      ticks_to_seconds, List.flatMap, c1_file, c1_extractor, List.map, List.append_nil,
      List.flatten]
    norm_num


/-- **C2** (monotonic timing): for every input (arbitrary tracks), an
engine constructed on a non-zero quarter-note division emits, over the
whole concatenated run, a sequence of `MidiEvent`s with non-decreasing
timestamps: adjacent emitted events satisfy
`e[i].timestamp ≤ e[i+1].timestamp`, including across tempo changes. -/
theorem monotonic_timestamps (qtr : Nat) (override_ch : Option Nat)
    (tracks : List (List midi_file.TrackEvent)) (e : Extractor)
    (hq : qtr ≠ 0)
    (hnew : Extractor.new { division := .QuarterNote qtr, tracks := tracks } override_ch = .ok e)
    (i : Nat) (hi : i + 1 < (e.run).2.length) :
    ((e.run).2.get ⟨i, Nat.lt_of_succ_lt hi⟩).timestamp ≤
      ((e.run).2.get ⟨i + 1, hi⟩).timestamp := by
  rw [Extractor.new_quarter] at hnew
  cases hnew
  obtain ⟨-, -, -, -, -, hchain⟩ :=
    Extractor.processAll_spec (tracks.flatMap id) (initExtractor qtr tracks override_ch)
      Nat.le.refl
  have hchain2 := hchain.tail
  simp only [List.tail_cons] at hchain2
  rw [List.chain'_iff_get] at hchain2
  have hrun : (initExtractor qtr tracks override_ch).run =
      (initExtractor qtr tracks override_ch).processAll (tracks.flatMap id) := rfl
  rw [hrun] at hi
  have hlen : i < (((initExtractor qtr tracks override_ch).processAll
      (tracks.flatMap id)).2.map midi_event.MidiEvent.timestamp).length - 1 := by
    simp only [List.length_map]
    omega
  have h := hchain2 i hlen
  simp only [List.get_eq_getElem, List.getElem_map] at h
  simp only [List.get_eq_getElem]
  exact h

theorem trueElapsedSec_nil (p t : Nat) : trueElapsedSec p t [] = 0 := rfl

theorem trueElapsedSec_append (p : Nat) (xs ys : List midi_file.TrackEvent) :
    ∀ t : Nat, trueElapsedSec p t (xs ++ ys) =
      trueElapsedSec p t xs + trueElapsedSec p (tempoAfter t xs) ys := by
  induction xs with
  | nil => intro t; simp [trueElapsedSec, tempoAfter]
  | cons x xs ih =>
      intro t
      simp only [List.cons_append, trueElapsedSec, tempoAfter, List.append_eq]
      rw [ih]
      ring

/-- **C3** (tempo-segment accounting invariant): from a fresh engine on a
non-zero quarter-note division, after processing any prefix of events:
(1) `last_tempo_change_ticks ≤ ticks`; (2) the true elapsed seconds of the
prefix (each delta converted at the tempo in force) equals
`elapsed_sec + ticks_to_seconds (ticks - last_tempo_change_ticks, ppqn,
current_tempo)`; (3) any event emitted next carries exactly that quantity
at its moment of emission; and (4) a tempo-change event folds the closed
segment into `elapsed_sec`, resets `last_tempo_change_ticks` to the
current tick position, and installs the new tempo. -/
theorem tempo_segment_invariant (qtr : Nat) (override_ch : Option Nat)
    (tracks : List (List midi_file.TrackEvent)) (e : Extractor)
    (hq : qtr ≠ 0)
    (hnew : Extractor.new { division := .QuarterNote qtr, tracks := tracks } override_ch = .ok e)
    (events : List midi_file.TrackEvent) :
    ((e.processAll events).1.last_tempo_change_ticks ≤ (e.processAll events).1.ticks) ∧
    (trueElapsedSec qtr 500000 events =
      (e.processAll events).1.elapsed_sec +
        ticks_to_seconds
          ((e.processAll events).1.ticks - (e.processAll events).1.last_tempo_change_ticks)
          (e.processAll events).1.pulses_per_qn
          (e.processAll events).1.current_tempo_micros_per_qn) ∧
    (∀ (ev : midi_file.TrackEvent) (m : midi_event.MidiEvent),
      ((e.processAll events).1.process_event ev).2 = some m →
        m.timestamp = trueElapsedSec qtr 500000 (events ++ [ev])) ∧
    (∀ (s : Extractor) (d t : Nat),
      (s.process_event { delta_time := d, event := .Meta (.SetTempo t) }).1 =
        { s with
            ticks := s.ticks + d
            last_tempo_change_ticks := s.ticks + d
            elapsed_sec := s.elapsed_sec +
              ticks_to_seconds (s.ticks + d - s.last_tempo_change_ticks) s.pulses_per_qn
                s.current_tempo_micros_per_qn
            current_tempo_micros_per_qn := t }) := by
  rw [Extractor.new_quarter] at hnew
  cases hnew
  obtain ⟨h1, h2, h3, h4, h5, -⟩ :=
    Extractor.processAll_spec events (initExtractor qtr tracks override_ch) Nat.le.refl
  have hp : (initExtractor qtr tracks override_ch).pulses_per_qn = qtr := rfl
  have hc : (initExtractor qtr tracks override_ch).current_tempo_micros_per_qn = 500000 := rfl
  have hnow0 : (initExtractor qtr tracks override_ch).now = 0 := by
    simp [Extractor.now, initExtractor, ticks_to_seconds_zero]
  rw [hp] at h2
  rw [hc] at h4
  rw [hnow0, zero_add, hp, hc] at h5
  refine ⟨h1, ?_, ?_, ?_⟩
  · rw [← h5]
    rfl
  · intro ev m hm
    have hts := Extractor.process_event_emit_ts _ ev m hm
    have hnow := Extractor.process_event_now
      ((initExtractor qtr tracks override_ch).processAll events).1 ev h1
    rw [hts, hnow, h5, h2, h4, trueElapsedSec_append]
    simp [trueElapsedSec]
  · intro s d t
    rfl

/-- Tracks used by the C2/C3 witnesses: a note, a tempo change, a note. -/
def w2_tracks : List (List midi_file.TrackEvent) :=
  [[ { delta_time := 0,
       event := .Midi (.NoteOn { channel := 0, note_number := 60, velocity := 100 }) },
     { delta_time := 480, event := .Meta (.SetTempo 250000) },
     { delta_time := 480,
       event := .Midi (.NoteOff { channel := 0, note_number := 60, velocity := 0 }) } ]]

theorem monotonic_timestamps_witness :
    (((initExtractor 480 w2_tracks none).run).2.get ⟨0, by decide⟩).timestamp ≤
      (((initExtractor 480 w2_tracks none).run).2.get ⟨0 + 1, by decide⟩).timestamp :=
  monotonic_timestamps 480 none w2_tracks (initExtractor 480 w2_tracks none)
    (by decide) (Extractor.new_quarter 480 w2_tracks none) 0 (by decide)

theorem tempo_segment_invariant_witness :
    ((initExtractor 480 w2_tracks none).processAll (w2_tracks.flatMap id)).1.last_tempo_change_ticks ≤
      ((initExtractor 480 w2_tracks none).processAll (w2_tracks.flatMap id)).1.ticks :=
  (tempo_segment_invariant 480 none w2_tracks (initExtractor 480 w2_tracks none)
    (by decide) (Extractor.new_quarter 480 w2_tracks none) (w2_tracks.flatMap id)).1

/-- A MIDI file whose header division is SMPTE-based. -/
def smpte_file : midi_file.MidiFile := { division := .Smpte 25 40, tracks := [] }

/-- **C4 counterexample**: on an SMPTE-based division, `Extractor::new`
does not return a NotSupported/UnsupportedDivision error value to the
caller; it traps — `unimplemented!("SMPTE division")` aborts the process. -/
theorem unsupported_division_counterexample :
    Extractor.new smpte_file none = .panicked "SMPTE division" ∧
    (Extractor.new smpte_file none).isErr = false := by
  constructor <;> rfl

/-- **C4 amended**: for every SMPTE-based division, construction fails fast
by panicking (`unimplemented!`) before any events are processed — no error
value is returned; for every tick-based division, construction succeeds
and stores the division as `pulses_per_qn`. -/
theorem unsupported_division_behavior (tracks : List (List midi_file.TrackEvent))
    (override_ch : Option Nat) (fps tpf qtr : Nat) :
    Extractor.new { division := .Smpte fps tpf, tracks := tracks } override_ch =
        .panicked "SMPTE division" ∧
    (Extractor.new { division := .Smpte fps tpf, tracks := tracks } override_ch).isErr
        = false ∧
    ∃ e : Extractor,
      Extractor.new { division := .QuarterNote qtr, tracks := tracks } override_ch = .ok e ∧
      e.pulses_per_qn = qtr := by
  exact ⟨rfl, rfl, initExtractor qtr tracks override_ch,
    Extractor.new_quarter qtr tracks override_ch, rfl⟩

/-- **C5** (collision filter, spec-modelled): with collision skipping
enabled, two adjacent equal-timestamp events of which the earlier is a
`NoteOff` and the later a `NoteOn` reduce to just the `NoteOn`; with the
filter disabled both appear in the final output. -/
theorem collision_filter (e1 e2 : midi_event.MidiEvent)
    (hts : e1.timestamp = e2.timestamp)
    (hoff : e1.message.isNoteOff = true)
    (hon : e2.message.isNoteOn = true) :
    final_output true [e1, e2] = [e2] ∧ final_output false [e1, e2] = [e1, e2] := by
  refine ⟨?_, rfl⟩
  simp [final_output, skip_collisions, hts, hoff]

theorem collision_filter_witness :
    final_output true
        [ { timestamp := 5, message := .NoteOff 60 0, channel := 1 },
          { timestamp := 5, message := .NoteOn 60 100, channel := 1 } ] =
      [ { timestamp := 5, message := .NoteOn 60 100, channel := 1 } ] ∧
    final_output false
        [ { timestamp := 5, message := .NoteOff 60 0, channel := 1 },
          { timestamp := 5, message := .NoteOn 60 100, channel := 1 } ] =
      [ { timestamp := 5, message := .NoteOff 60 0, channel := 1 },
        { timestamp := 5, message := .NoteOn 60 100, channel := 1 } ] :=
  collision_filter
    { timestamp := 5, message := .NoteOff 60 0, channel := 1 }
    { timestamp := 5, message := .NoteOn 60 100, channel := 1 } rfl rfl rfl

/-- **C6** (channel resolution): for each classified channel message
(note-on, note-off via `is_on`, control-change), an override channel
supplied at construction is used verbatim for every event; otherwise the
emitted channel is the raw 0-based channel plus one. -/
theorem channel_resolution (self : Extractor) (note : midi_file.NoteMessage)
    (cc : midi_file.ControlChangeValue) (ts : ℚ) (is_on : Bool)
    (hn : note.channel ≤ 15) (hc : cc.channel ≤ 15) :
    (∀ o : Nat, self.override_midi_channel = some o →
        (self.handle_note note ts is_on).channel = o ∧
        (self.handle_control_change cc ts).channel = o) ∧
    (self.override_midi_channel = none →
        (self.handle_note note ts is_on).channel = note.channel + 1 ∧
        (self.handle_control_change cc ts).channel = cc.channel + 1) := by
  constructor
  · intro o ho
    simp [Extractor.handle_note, Extractor.handle_control_change, ho]
  · intro ho
    have h1 : (note.channel + 1) % 256 = note.channel + 1 := Nat.mod_eq_of_lt (by omega)
    have h2 : (cc.channel + 1) % 256 = cc.channel + 1 := Nat.mod_eq_of_lt (by omega)
    simp [Extractor.handle_note, Extractor.handle_control_change, ho, h1, h2]

theorem channel_resolution_witness :
    (((initExtractor 480 [] (some 5)).handle_note
        { channel := 7, note_number := 60, velocity := 100 } 0 true).channel = 5 ∧
      ((initExtractor 480 [] (some 5)).handle_control_change
        { channel := 7, control := 1, value := 64 } 0).channel = 5) ∧
    (((initExtractor 480 [] none).handle_note
        { channel := 15, note_number := 60, velocity := 100 } 0 true).channel = 15 + 1 ∧
      ((initExtractor 480 [] none).handle_control_change
        { channel := 15, control := 1, value := 64 } 0).channel = 15 + 1) :=
  ⟨(channel_resolution (initExtractor 480 [] (some 5))
      { channel := 7, note_number := 60, velocity := 100 }
      { channel := 7, control := 1, value := 64 } 0 true (by decide) (by decide)).1 5 rfl,
   (channel_resolution (initExtractor 480 [] none)
      { channel := 15, note_number := 60, velocity := 100 }
      { channel := 15, control := 1, value := 64 } 0 true (by decide) (by decide)).2 rfl⟩

/-- **C7** (formatting exactness with truncation): the formatter renders a
`NoteOn(60, 100)` on channel 3 at timestamp 106.704 s as exactly
`[midi@01:46.704: N60.100@3]`, the minute/second fields truncated from the
whole seconds and the millisecond field the truncated sub-second rest. -/
theorem formatting_exactness :
    StageTraxxFormatter.format
        { timestamp := 106704 / 1000, message := .NoteOn 60 100, channel := 3 } =
      "[midi@01:46.704: N60.100@3]" := by
  have hround : round ((106704 / 1000 : ℚ) * 1000000000) = 106704000000 := by
    rw [round_eq]
    norm_num
  simp only [StageTraxxFormatter.format, StageTraxxFormatter.format_midi_time, hround]
  decide

/-- **C8** (SMPTE-offset decode): for every 5-byte payload (hr a byte),
the decoder returns the table frame rate of the 2-bit code
`(hr >> 6) & 0b11` paired with the hour `hr & 0b1_1111`; in particular
`hr = 0b01000101` decodes to `(25.0, 5)`. -/
theorem smpte_offset_decode (v : midi_file.SmpteOffsetValue) (hv : v.hr < 256) :
    extract_frame_rate_hrs v =
      some (frameRateTable ((v.hr >>> 6) &&& 0b00000011), v.hr &&& 0b00011111) ∧
    extract_frame_rate_hrs { hr := 0b01000101, mn := 0, se := 0, fr := 0, ff := 0 } =
      some (25, 5) := by
  constructor
  · simp only [extract_frame_rate_hrs]
    generalize hg : (v.hr >>> 6) &&& 0b00000011 = c
    have hc3 : c ≤ 3 := by
      rw [← hg]
      exact Nat.and_le_right
    have h4 : c = 0 ∨ c = 1 ∨ c = 2 ∨ c = 3 := by omega
    rcases h4 with h | h | h | h <;> subst h <;> rfl
  · rfl

theorem smpte_offset_decode_witness :
    extract_frame_rate_hrs { hr := 69, mn := 0, se := 0, fr := 0, ff := 0 } =
      some (frameRateTable ((69 >>> 6) &&& 0b00000011), 69 &&& 0b00011111) :=
  (smpte_offset_decode { hr := 69, mn := 0, se := 0, fr := 0, ff := 0 } (by decide)).1

/-- **C9** (invalid-frame-rate-code branch unreachability): for every hr
byte (all 256 values) and any other payload bytes, the 2-bit code
`(hr >> 6) & 0b11` lies below 4, so the panicking conversion arm is never
taken and the decoder always returns a value. -/
theorem frame_rate_code_total (hr : Fin 256) (mn se fr ff : Nat) :
    ((hr.val >>> 6) &&& 0b00000011) < 4 ∧
    (extract_frame_rate_hrs
        { hr := hr.val, mn := mn, se := se, fr := fr, ff := ff }).isSome = true := by
  refine ⟨Nat.lt_succ_of_le Nat.and_le_right, ?_⟩
  simp only [extract_frame_rate_hrs]
  generalize hg : (hr.val >>> 6) &&& 0b00000011 = c
  have hc3 : c ≤ 3 := by
    rw [← hg]
    exact Nat.and_le_right
  have h4 : c = 0 ∨ c = 1 ∨ c = 2 ∨ c = 3 := by omega
  rcases h4 with h | h | h | h <;> subst h <;> rfl

/-- The view of an extractor state as `main`'s loop variables (field-for-
field: the two engine copies keep the same five pieces of mutable state). -/
def Extractor.toLoopState (s : Extractor) : main.LoopState :=
  { tempo_micros_per_q := s.current_tempo_micros_per_qn
    ticks := s.ticks
    last_tempo_change_tick := s.last_tempo_change_ticks
    ellapsed_seconds := s.elapsed_sec
    last_midi_event_ts := s.last_midi_event_ts }

theorem main_step_agrees (s : Extractor) (ev : midi_file.TrackEvent) :
    main.step s.override_midi_channel s.pulses_per_qn s.toLoopState ev =
      ((s.process_event ev).1.toLoopState,
        (s.process_event ev).2.map StageTraxxFormatter.format) := by
  obtain ⟨dt, e⟩ := ev
  cases e with
  | Midi msg =>
      cases msg <;>
        simp [main.step, Extractor.process_event, Extractor.toLoopState,
          main.handle_midi_msg, Extractor.handle_midi_msg, main.handle_note,
          Extractor.handle_note, Extractor.handle_control_change,
          StageTraxxFormatter.format, main.ticks_to_seconds, ticks_to_seconds,
          main.format_midi_time, StageTraxxFormatter.format_midi_time]
  | Meta m => cases m <;> rfl

theorem Extractor.processAll_override_eq (events : List midi_file.TrackEvent) :
    ∀ s : Extractor, (s.processAll events).1.override_midi_channel = s.override_midi_channel := by
  induction events with
  | nil => intro s; rfl
  | cons e rest ih =>
      intro s
      have h := ih (s.process_event e).1
      rw [s.process_event_override e] at h
      exact h

theorem Extractor.processAll_ppqn_eq (events : List midi_file.TrackEvent) :
    ∀ s : Extractor, (s.processAll events).1.pulses_per_qn = s.pulses_per_qn := by
  induction events with
  | nil => intro s; rfl
  | cons e rest ih =>
      intro s
      have h := ih (s.process_event e).1
      rw [s.process_event_ppqn e] at h
      exact h

theorem main_eventLoop_agrees (events : List midi_file.TrackEvent) :
    ∀ s : Extractor,
      main.eventLoop s.override_midi_channel s.pulses_per_qn s.toLoopState events =
        ((s.processAll events).1.toLoopState,
          (s.processAll events).2.map StageTraxxFormatter.format) := by
  induction events with
  | nil => intro s; rfl
  | cons e rest ih =>
      intro s
      have hstep := main_step_agrees s e
      have ih2 := ih (s.process_event e).1
      rw [s.process_event_override e, s.process_event_ppqn e] at ih2
      simp only [main.eventLoop, Extractor.processAll, hstep, ih2]
      rcases (s.process_event e).2 with _ | m <;> simp

theorem Extractor.processAll_append (xs ys : List midi_file.TrackEvent) :
    ∀ s : Extractor,
      s.processAll (xs ++ ys) =
        (((s.processAll xs).1.processAll ys).1,
         (s.processAll xs).2 ++ ((s.processAll xs).1.processAll ys).2) := by
  induction xs with
  | nil => intro s; simp [Extractor.processAll]
  | cons x xs ih =>
      intro s
      simp only [List.cons_append, Extractor.processAll]
      rcases (s.process_event x).2 with _ | m <;> simp [ih ((s.process_event x).1)]

theorem main_trackLoop_agrees (tracks : List (List midi_file.TrackEvent)) :
    ∀ s : Extractor,
      main.trackLoop s.override_midi_channel s.pulses_per_qn s.toLoopState tracks =
        ((s.processAll (tracks.flatMap id)).1.toLoopState,
         (s.processAll (tracks.flatMap id)).2.map StageTraxxFormatter.format) := by
  induction tracks with
  | nil => intro s; rfl
  | cons t rest ih =>
      intro s
      have hinner := main_eventLoop_agrees t s
      have ih2 := ih (s.processAll t).1
      rw [Extractor.processAll_override_eq, Extractor.processAll_ppqn_eq] at ih2
      simp only [main.trackLoop, hinner, ih2, List.flatMap_cons, id_eq]
      rw [Extractor.processAll_append]
      simp

/-- `(1_000_000.0 / (120.0 / 60.0)) as u32` in `main.rs` is also 500,000. -/
theorem main_default_tempo_val :
    (⌊main.micros_per_s / (main.starting_bpm / 60)⌋).toNat = 500000 := by
  norm_num [main.micros_per_s, main.starting_bpm]
  decide

/-- **C10** (duplicate-engine equivalence): for every tick-based division,
override setting and event input, `main`'s inline timing loop prints
exactly the formatted lines obtained by running `Extractor::run` on the
same input and formatting each emitted `MidiEvent` with
`StageTraxxFormatter::format`. -/
theorem main_pipeline_equiv (qtr : Nat) (override_ch : Option Nat)
    (tracks : List (List midi_file.TrackEvent)) (e : Extractor)
    (hnew : Extractor.new { division := .QuarterNote qtr, tracks := tracks } override_ch
      = .ok e) :
    main.run override_ch qtr tracks = (e.run).2.map StageTraxxFormatter.format := by
  rw [Extractor.new_quarter] at hnew
  cases hnew
  have hinit : (initExtractor qtr tracks override_ch).toLoopState = main.initState := by
    simp [Extractor.toLoopState, initExtractor, main.initState, main_default_tempo_val]
  have h := main_trackLoop_agrees tracks (initExtractor qtr tracks override_ch)
  have hov : (initExtractor qtr tracks override_ch).override_midi_channel = override_ch := rfl
  have hpq : (initExtractor qtr tracks override_ch).pulses_per_qn = qtr := rfl
  rw [hov, hpq, hinit] at h
  show (main.trackLoop override_ch qtr main.initState tracks).2 = _
  rw [h]
  rfl

theorem main_pipeline_equiv_witness :
    main.run none 480 c1_file.tracks =
      ((c1_extractor.run).2.map StageTraxxFormatter.format) :=
  main_pipeline_equiv 480 none c1_file.tracks c1_extractor
    (by simp [Extractor.new, c1_file, c1_extractor, default_tempo_val])
